import Mathlib

/-!
Formal model of the EPOS4 serial-drive driver (`drivers.py`).

Python byte strings are modelled as `List Nat` (entries are bytes, i.e. below
256 where that matters).  The serial link is modelled as a queue of canned
reply chunks together with a log of transmitted frames.  Uncaught Python
exceptions (a failed `assert`, a `struct.error` outside `try`) are modelled
explicitly by dedicated error constructors.

Line numbers in doc comments refer to `drivers.py`.
-/

namespace EPOS4

abbrev Bytes := List Nat

/-- Data link escape byte, `self.DLE = b'\x90'` (line 16). -/
def DLE : Nat := 0x90

/-- Start of text byte, `self.STX = b'\x02'` (line 17). -/
def STX : Nat := 0x02

/-- The joining loop of `byte_stuff` (lines 143-147): every section produced
by splitting at `DLE`, except the last, is followed by two `DLE` bytes, and
finally the last section is appended. -/
def escape_join : List Bytes → Bytes
  | [] => []
  | [s] => s
  | s :: s' :: rest => s ++ [DLE, DLE] ++ escape_join (s' :: rest)

/-- `EPOS4.byte_stuff` (lines 136-149): split the payload at `DLE`, re-join
the sections with doubled `DLE` bytes, and prepend the `DLE, STX` preamble. -/
def byte_stuff (ba : Bytes) : Bytes :=
  DLE :: STX :: escape_join (ba.splitOn DLE)

/-- Elements at positions `0, 2, 4, …` of a list.  Python's slice `l[1::2]`
(used at line 167) is `everyOther (l.drop 1)`, and `l[0:-1:2]` (used at
line 174) is `everyOther l.dropLast`. -/
def everyOther : List α → List α
  | [] => []
  | [a] => [a]
  | a :: _ :: rest => a :: everyOther rest

/-- `EPOS4.byte_unstuff` (lines 151-185).  The function demands the
`DLE, STX` preamble, splits the remainder at `DLE`, and accepts exactly when
the number of sections is odd and every section at an odd (0-based) position
is empty; it then re-joins the sections at even positions (except the last)
with single `DLE` bytes.  `none` models the `return None` branches. -/
def byte_unstuff (ba : Bytes) : Option Bytes :=
  if ba.take 2 = [DLE, STX] then
    let split := (ba.drop 2).splitOn DLE
    if split.length % 2 = 1 ∧ ∀ s ∈ everyOther (split.drop 1), s = ([] : Bytes) then
      some ((everyOther split.dropLast).foldl (fun acc s => acc ++ s ++ [DLE]) [] ++
        split.getLastD [])
    else none
  else none

/-! ### Round-trip machinery for the frame codec -/

/-- Interleaving a list of sections with empty sections: this is how a
payload joined with doubled `DLE` bytes splits back at single `DLE`s. -/
def interleave : List Bytes → List Bytes
  | [] => []
  | [s] => [s]
  | s :: s' :: rest => s :: [] :: interleave (s' :: rest)

/-- Straight-line re-joining of sections, each followed by one `DLE`. -/
def join_sections : List Bytes → Bytes
  | [] => []
  | s :: rest => s ++ [DLE] ++ join_sections rest

/-- The validation criterion exactly as the claim words it: the input must
begin with `DLE, STX`, and the remainder, split on `DLE`, must produce an odd
number of segments in which every even-indexed segment (0-based) is empty.
This definition follows the specification text, to be compared with
`byte_unstuff` from the source. -/
def unstuff_claimed_criterion (ba : Bytes) : Prop :=
  ba.take 2 = [DLE, STX] ∧
  ((ba.drop 2).splitOn DLE).length % 2 = 1 ∧
  ∀ k, k < ((ba.drop 2).splitOn DLE).length → k % 2 = 0 →
    ((ba.drop 2).splitOn DLE).getD k [] = []

instance (ba : Bytes) : Decidable (unstuff_claimed_criterion ba) := by
  unfold unstuff_claimed_criterion
  infer_instance

/-! ### CRC engine -/

/-- Outcome of a Python call: a returned value, or an uncaught exception
(a failed `assert` or an uncaught `struct.error`). -/
inductive Py (α : Type) where
  | ret : α → Py α
  | exn : Py α
deriving Repr, DecidableEq

/-- Little-endian byte pairs read as 16-bit words,
`struct.unpack('<' + num_words*'H', ba)` (lines 96-100).  The caller
guarantees an even number of bytes (the `assert` at line 91). -/
def le_words : Bytes → List Nat
  | b0 :: b1 :: rest => (b0 + 256 * b1) :: le_words rest
  | _ => []

/-- One pass of the inner `while` loop of `calc_crc` (lines 103-117) for a
given value of `shifter`: remember the carry (bit 15 of the old CRC), shift
the CRC left, add one when the `shifter` bit of the word is set, and on carry
discard bit 16 and fold in the polynomial `0x1021`. -/
def crc_word_step (word CRC shifter : Nat) : Nat :=
  let CRC1 := CRC <<< 1
  let CRC2 := if word &&& shifter ≠ 0 then CRC1 + 1 else CRC1
  if CRC &&& 0x8000 ≠ 0 then (CRC2 &&& 0xffff) ^^^ 0x1021 else CRC2

/-- The inner `while` loop of `calc_crc`: `shifter` runs through
`2^15, 2^14, …, 2^0` (16 iterations; the argument counts the remaining
iterations, so it starts at 16). -/
def crc_word_loop (word : Nat) : Nat → Nat → Nat
  | CRC, 0 => CRC
  | CRC, k+1 => crc_word_loop word (crc_word_step word CRC (2 ^ k)) k

/-- `EPOS4.calc_crc` (lines 87-119): bit-serial CRC-16 (polynomial `0x1021`)
over little-endian 16-bit words, MSB first, seeded with 0, returned as two
little-endian bytes (`CRC.to_bytes(2, 'little')`, line 119).  The `assert`s
of lines 91-94 (even length, zeroed trailing two bytes) become hypotheses of
the theorems, and `crc_match` (the only internal caller that can receive an
odd-length argument) checks the even-length condition explicitly. -/
def calc_crc (ba : Bytes) : Bytes :=
  let CRC := (le_words ba).foldl (fun CRC word => crc_word_loop word CRC 16) 0
  [CRC % 256, CRC / 256 % 256]

/-- `EPOS4.crc_match` (lines 187-201): rebuild the data with the last two
bytes zeroed, recompute the CRC and compare it with the received trailing two
bytes.  When the rebuilt data has odd length (which happens exactly for
frames of odd length at least 3), the `assert` at line 91 of `calc_crc`
raises `AssertionError`, modelled by `Py.exn`. -/
def crc_match (ba : Bytes) : Py Bool :=
  let data := ba.take (ba.length - 2) ++ [0, 0]
  if data.length % 2 = 0 then
    .ret (decide (ba.drop (ba.length - 2) = calc_crc data))
  else
    .exn

/-! ### CRC bit-stream bridge -/

/-- The bits of `w` from position `k-1` down to position 0, as 0/1 values. -/
def bitsMSB (w : Nat) : Nat → List Nat
  | 0 => []
  | k+1 => (w.testBit k).toNat :: bitsMSB w k

/-- The 16 bits of a word, most significant first. -/
def wordBits (w : Nat) : List Nat := bitsMSB w 16

/-- All bits of a word list, word by word, MSB first within each word. -/
def bitstream : List Nat → List Nat
  | [] => []
  | w :: ws => wordBits w ++ bitstream ws

/-- The CRC update for a single input bit `b`. -/
def stepB (CRC b : Nat) : Nat :=
  if CRC &&& 0x8000 ≠ 0 then (((CRC <<< 1) + b) &&& 0xffff) ^^^ 0x1021
  else (CRC <<< 1) + b

/-! ### Single-bit flips, from bytes down to the bit stream -/

/-- Flip bit `i` of the byte at position `p`. -/
def flipBit (l : Bytes) (p i : Nat) : Bytes := l.set p (l.getD p 0 ^^^ 2 ^ i)

/-- `EPOS4.add_crc` (lines 121-134): replace the two zero placeholder bytes
at the end of `data` with the computed CRC.  Its `assert`s (even length,
zeroed placeholder, 2-byte CRC) hold at every call site. -/
def add_crc (data crc : Bytes) : Bytes := data.take (data.length - 2) ++ crc

/-! ### Serial transport model and transaction engine

The serial link is modelled by a queue of canned raw reply chunks
(`responses`, one chunk consumed per `read_and_unpack` call: the bytes that
arrive between the request and the end of the drain loop of lines 237-241)
and a log of raw transmitted frames (`sent`).  Reply chunks arrive only
after the corresponding request, so the stray-byte drain of lines 205-207
sees an empty buffer and is a no-op; `serial.write` is assumed complete
(`num_bytes_sent == len(f3)`, line 216). -/

structure DriveIO where
  responses : List Bytes
  sent : List Bytes
deriving Repr, DecidableEq

/-- `self.NODE_ID = 0` (line 15). -/
def NODE_ID : Nat := 0

/-- `n` little-endian bytes of `v` (Python `struct.pack` of an unsigned
little-endian field, and `int.to_bytes(n, 'little')`). -/
def le_bytes : Nat → Nat → Bytes
  | 0, _ => []
  | n+1, v => (v % 256) :: le_bytes n (v / 256)

/-- Little-endian byte sequence read back as an unsigned number
(`struct.unpack` of an unsigned little-endian field). -/
def le_nat : Bytes → Nat
  | [] => 0
  | b :: rest => b + 256 * le_nat rest

/-- `EPOS4.pack_and_write` (lines 203-220): append the CRC, stuff, transmit. -/
def pack_and_write (ba : Bytes) (s : DriveIO) : Bool × DriveIO :=
  (true, { s with sent := s.sent ++ [byte_stuff (add_crc ba (calc_crc ba))] })

/-- The polling wait loop of `read_and_unpack` (lines 226-233): poll
`serial.any()` each millisecond (`any` gives the number of bytes available
`t` milliseconds after `time_started`), and give up once
`time.ticks_diff(time.ticks_ms(), time_started) >= 1000`.  Returns the time
at which data was first seen, or `none` on timeout. -/
def read_wait (any : Nat → Nat) (time_started t : Nat) : Option Nat :=
  if any t = 0 then
    if 1000 ≤ t + 1 - time_started then none
    else read_wait any time_started (t + 1)
  else some t
termination_by 1000 + time_started - t
decreasing_by omega

/-- `EPOS4.read_and_unpack` (lines 222-258).  An empty queue models a
transport that never produces a byte: the wait loop (`read_wait`) times out
and the method returns `None`.  Otherwise the next chunk is drained,
unstuffed and CRC-checked; `crc_match` can raise (odd-length frame), which
propagates. -/
def read_and_unpack (s : DriveIO) : Py (Option Bytes) × DriveIO :=
  match s.responses with
  | [] => (.ret none, s)
  | r :: rest =>
    let s' : DriveIO := ⟨rest, s.sent⟩
    match byte_unstuff r with
    | none => (.ret none, s')
    | some u =>
      match crc_match u with
      | .exn => (.exn, s')
      | .ret true => (.ret (some (u.take (u.length - 2))), s')
      | .ret false => (.ret none, s')

/-- The object dictionary `self.objects` (lines 26-49). -/
def objects : List (String × Nat × Nat × Char) := [
  ("error",                (0x1001, 0x00, 'B')),
  ("actual_voltage",       (0x2200, 0x01, 'H')),
  ("current_limit",        (0x3001, 0x02, 'L')),
  ("homing_current_limit", (0x30b2, 0x00, 'H')),
  ("average_current",      (0x30d1, 0x01, 'l')),
  ("actual_current",       (0x30d1, 0x02, 'l')),
  ("actual_temperature",   (0x3201, 0x01, 'h')),
  ("control",              (0x6040, 0x00, 'H')),
  ("status",               (0x6041, 0x00, 'H')),
  ("mode",                 (0x6060, 0x00, 'b')),
  ("mode_display",         (0x6061, 0x00, 'b')),
  ("actual_position",      (0x6064, 0x00, 'l')),
  ("velocity_demand",      (0x606b, 0x00, 'l')),
  ("actual_velocity",      (0x606c, 0x00, 'l')),
  ("target_position",      (0x607a, 0x00, 'l')),
  ("profile_velocity",     (0x6081, 0x00, 'L')),
  ("profile_acceleration", (0x6083, 0x00, 'L')),
  ("profile_deceleration", (0x6084, 0x00, 'L')),
  ("profile_type",         (0x6086, 0x00, 'h')),
  ("homing_method",        (0x6098, 0x00, 'b')),
  ("homing_speed_switch",  (0x6099, 0x01, 'L')),
  ("target_velocity",      (0x60ff, 0x00, 'l'))]

def lookupObject (object_name : String) : Option (Nat × Nat × Char) :=
  (objects.find? (fun o => o.1 == object_name)).map (fun o => o.2)

/-- `[d[2] for d in self.objects.values()]` (lines 262 and 304). -/
def table_formats : List Char := objects.map (fun o => o.2.2.2)

/-- The mode dictionary `self.mode` (lines 52-59). -/
def modes : List (String × Int) :=
  [("PPM", 1), ("PVM", 3), ("HMM", 6), ("CSP", 8), ("CSV", 9), ("CST", 10)]

def lookupMode (mode_text : String) : Option Int :=
  (modes.find? (fun m => m.1 == mode_text)).map (fun m => m.2)

/-- The control-command table `self.control` (lines 63-83): mask, bit value,
applicable mode. -/
def control : List (String × Nat × Nat × String) := [
  ("shutdown",             (0x0087, 0x0006, "ANY")),
  ("switch_on",            (0x0087, 0x0007, "ANY")),
  ("switch_on_and_enable", (0x008f, 0x000f, "ANY")),
  ("disable_voltage",      (0x0082, 0x0000, "ANY")),
  ("quick_stop",           (0x0086, 0x0002, "ANY")),
  ("disable_operation",    (0x008f, 0x0007, "ANY")),
  ("enable_operation",     (0x008f, 0x000f, "ANY")),
  ("start",                (0x0100, 0x0000, "ANY")),
  ("stop",                 (0x0100, 0x0100, "ANY")),
  ("homing_start",         (0x0010, 0x0010, "HMM")),
  ("clear_homing_start",   (0x0010, 0x0000, "HMM")),
  ("absolute",             (0x0040, 0x0000, "PPM")),
  ("relative",             (0x0040, 0x0040, "PPM")),
  ("new_setpoint",         (0x0010, 0x0010, "PPM")),
  ("clear_new_setpoint",   (0x0010, 0x0000, "PPM")),
  ("move_immediate",       (0x0020, 0x0020, "PPM")),
  ("move_after_current",   (0x0020, 0x0000, "PPM")),
  ("fault_low",            (0x0080, 0x0000, "ANY")),
  ("fault_high",           (0x0080, 0x0080, "ANY"))]

def lookupControl (command_text : String) : Option (Nat × Nat × String) :=
  (control.find? (fun c => c.1 == command_text)).map (fun c => c.2)

/-- Width in bytes of a `struct` format character. -/
def fmt_size (c : Char) : Nat :=
  if c = 'B' ∨ c = 'b' then 1
  else if c = 'H' ∨ c = 'h' then 2
  else if c = 'L' ∨ c = 'l' then 4
  else 0

def fmt_signed (c : Char) : Bool := c = 'b' ∨ c = 'h' ∨ c = 'l'

/-- Decode a little-endian field per its format character (two's complement
for the signed formats), as `struct.unpack` does. -/
def decode_fmt (c : Char) (bs : Bytes) : Int :=
  if fmt_signed c ∧ 2 ^ (8 * fmt_size c - 1) ≤ le_nat bs then
    (le_nat bs : Int) - 2 ^ (8 * fmt_size c)
  else (le_nat bs : Int)

/-- `EPOS4.read_object` (lines 260-288).  The request is
`struct.pack('<BBBHBH', 0x60, 2, NODE_ID, index, subindex, 0)`; the reply
body (CRC stripped) is parsed as `'<BBI' + data_format`.  This is
MicroPython (the program imports `machine` and `ubinascii`), whose
`struct.unpack` is `unpack_from`: it raises only when the buffer is smaller
than the format needs and silently ignores trailing bytes.  The raised
"buffer too small" error is caught (lines 275-279) and turned into `None`.
The `assert` of line 262 (format in the dictionary) is modelled by the
outer guard. -/
def read_object (index subindex : Nat) (data_format : Char) (s : DriveIO) :
    Py (Option Int) × DriveIO :=
  if data_format ∈ table_formats then
    let frame : Bytes := [0x60, 0x02, NODE_ID] ++ le_bytes 2 index ++
      [subindex % 256, 0, 0]
    let s1 := (pack_and_write frame s).2
    match read_and_unpack s1 with
    | (.exn, s2) => (.exn, s2)
    | (.ret none, s2) => (.ret none, s2)
    | (.ret (some recvd), s2) =>
      if 6 + fmt_size data_format ≤ recvd.length then
        if recvd.getD 0 0 = 0 ∧ recvd.getD 1 0 = 4 ∧
            le_nat ((recvd.drop 2).take 4) = 0 then
          (.ret (some (decode_fmt data_format
            ((recvd.drop 6).take (fmt_size data_format)))), s2)
        else (.ret none, s2)
      else (.ret none, s2)
  else (.exn, s)

/-- `EPOS4.read_object_by_name` (lines 290-295); a missing key fails the
`assert` of line 291. -/
def read_object_by_name (object_name : String) (s : DriveIO) :
    Py (Option Int) × DriveIO :=
  match lookupObject object_name with
  | some (index, subindex, data_format) => read_object index subindex data_format s
  | none => (.exn, s)

inductive WriteOutcome where
  | ok      -- returned True
  | failed  -- returned False
  | exn     -- uncaught exception
deriving Repr, DecidableEq

/-- The 4-byte little-endian two's-complement encoding `struct.pack('<l', data)`
pinned by line 300 (`data_format = 'l'`). -/
def int32_le (data : Int) : Bytes := le_bytes 4 (data % (2 ^ 32 : Int)).toNat

/-- `EPOS4.write_object` (lines 297-334).  The declared `data_format` is
ignored: line 300 overwrites it with `'l'`, so the value travels as a 4-byte
signed field; the `assert` of line 304 then checks `'l' ∈ table_formats`.
The reply body is parsed as `struct.unpack('<BBH', recvd)` with no
`try` around it (line 319).  MicroPython's `struct.unpack` is `unpack_from`:
it decodes any body of at least 4 bytes, ignoring trailing bytes, and raises
only when the buffer is too small; that uncaught error (body shorter than 4
bytes) is modelled by `.exn`. -/
def write_object (index subindex : Nat) (data : Int) (data_format : Char)
    (s : DriveIO) : WriteOutcome × DriveIO :=
  if 'l' ∈ table_formats then
    let frame : Bytes := [0x68, 0x04, NODE_ID] ++ le_bytes 2 index ++
      [subindex % 256] ++ int32_le data ++ [0, 0]
    let sent := pack_and_write frame s
    if sent.1 then
      match read_and_unpack sent.2 with
      | (.exn, s2) => (.exn, s2)
      | (.ret none, s2) => (.failed, s2)
      | (.ret (some recvd), s2) =>
        if 4 ≤ recvd.length then
          if recvd.getD 0 0 = 0 ∧ recvd.getD 1 0 = 2 ∧
              recvd.getD 2 0 + 256 * recvd.getD 3 0 = 0 then (.ok, s2)
          else (.failed, s2)
        else (.exn, s2)
    else (.failed, sent.2)
  else (.exn, s)

/-- `EPOS4.write_object_by_name` (lines 336-341). -/
def write_object_by_name (object_name : String) (data : Int) (s : DriveIO) :
    WriteOutcome × DriveIO :=
  match lookupObject object_name with
  | some (index, subindex, data_format) => write_object index subindex data data_format s
  | none => (.exn, s)

/-- `EPOS4.get_control` (lines 343-345). -/
def get_control (s : DriveIO) : Py (Option Int) × DriveIO :=
  read_object_by_name "control" s

/-- The masked update of line 373,
`data_to_write = (existing & ~mask) | (control & mask)`:  on a 16-bit
`existing` (read through format `'H'`), Python's `existing & ~mask` equals
masking with the 16-bit complement `0xffff ^^^ mask`. -/
def applyMask (existing mask value : Nat) : Nat :=
  (existing &&& (0xffff ^^^ mask)) ||| (value &&& mask)

inductive SCResult where
  | noRead       -- returned None: the control-register read failed (line 379)
  | ok           -- returned True
  | failed       -- returned False
  | modeMismatch -- AssertionError from the mode gate of line 371
  | exn          -- any other uncaught exception, propagated
deriving Repr, DecidableEq

def scOfWrite : WriteOutcome → SCResult
  | .ok => .ok
  | .failed => .failed
  | .exn => .exn

/-- `EPOS4.set_control` (lines 347-379): read the control register, read the
displayed mode, look the command up, check the mode gate for mode-scoped
commands (`assert self.mode[applicable_mode] == current_mode`, line 371),
compute the masked update and write it back. -/
def set_control (command_text : String) (s : DriveIO) : SCResult × DriveIO :=
  match get_control s with
  | (.exn, s1) => (.exn, s1)
  | (.ret none, s1) => (.noRead, s1)
  | (.ret (some existing), s1) =>
    match read_object_by_name "mode_display" s1 with
    | (.exn, s2) => (.exn, s2)
    | (.ret current_mode, s2) =>
      match lookupControl command_text with
      | none => (.exn, s2)   -- the assert of line 361 fails
      | some (mask, control_bits, applicable_mode) =>
        if applicable_mode = "ANY" then
          let w := write_object_by_name "control"
            ((applyMask existing.toNat mask control_bits : Nat) : Int) s2
          (scOfWrite w.1, w.2)
        else
          match lookupMode applicable_mode with
          | none => (.exn, s2)   -- the assert of line 369 fails
          | some code =>
            if current_mode = some code then
              let w := write_object_by_name "control"
                ((applyMask existing.toNat mask control_bits : Nat) : Int) s2
              (scOfWrite w.1, w.2)
            else (.modeMismatch, s2)

/-- `EPOS4.get_status` (lines 381-382). -/
def get_status (s : DriveIO) : Py (Option Int) × DriveIO :=
  read_object_by_name "status" s

/-- `EPOS4.get_fault_status` (lines 384-389): `if error != 0` is true both
for a non-zero value and for `None`. -/
def get_fault_status (s : DriveIO) : Py Bool × DriveIO :=
  match read_object_by_name "error" s with
  | (.exn, s1) => (.exn, s1)
  | (.ret error, s1) => (.ret (decide (¬ error = some 0)), s1)

/-- `EPOS4.set_mode_of_operation` (lines 432-444): write the mode register
(result discarded), read the mode-display register back, compare. -/
def set_mode_of_operation (mode_text : String) (s : DriveIO) : Py Bool × DriveIO :=
  match lookupMode mode_text with
  | none => (.exn, s)   -- the assert of line 435 fails
  | some code =>
    match write_object_by_name "mode" code s with
    | (.exn, s1) => (.exn, s1)
    | (_, s1) =>
      match read_object_by_name "mode_display" s1 with
      | (.exn, s2) => (.exn, s2)
      | (.ret read_mode, s2) => (.ret (decide (read_mode = some code)), s2)

/-- `EPOS4.get_actual_position` (lines 422-425). -/
def get_actual_position (s : DriveIO) : Py (Option Int) × DriveIO :=
  read_object_by_name "actual_position" s

/-- Truthiness of the write result appended to `comms` (lines 490-495). -/
def writeToBool : WriteOutcome → Bool
  | .ok => true
  | _ => false

/-- Truthiness of the `set_control` result appended to `comms`: `None` and
`False` are both falsy in `all(comms)`. -/
def scToBool : SCResult → Bool
  | .ok => true
  | _ => false

/-- Sequencing after a call that may raise: an exception aborts the caller,
a returned value feeds the continuation. -/
def pyBind (x : Py α × DriveIO) (f : α → DriveIO → Py β × DriveIO) :
    Py β × DriveIO :=
  match x with
  | (.exn, s) => (.exn, s)
  | (.ret a, s) => f a s

/-- Sequencing after a `write_object_by_name` call inside `home`: an
uncaught exception aborts `home`; the boolean outcome is appended to
`comms` and execution continues. -/
def woStep (x : WriteOutcome × DriveIO) (f : WriteOutcome → DriveIO → Py β × DriveIO) :
    Py β × DriveIO :=
  match x with
  | (.exn, s) => (.exn, s)
  | (w, s) => f w s

/-- Sequencing after a `set_control` call inside `home`: the mode-gate
`AssertionError` and any other uncaught exception abort `home`; the
returned value (`True`, `False` or `None`) feeds the continuation. -/
def scStep (x : SCResult × DriveIO) (f : SCResult → DriveIO → Py β × DriveIO) :
    Py β × DriveIO :=
  match x with
  | (.modeMismatch, s) => (.exn, s)
  | (.exn, s) => (.exn, s)
  | (c, s) => f c s

/-- `EPOS4.home` (lines 483-516).  For `"in_place"`: set mode HMM (result
ignored), write homing method 37, pulse and clear `homing_start`, and when
all three reported success (`all(comms)`), succeed exactly when the actual
position reads zero.  `AssertionError` from a mode-gated `set_control` and
uncaught `struct.error` propagate out of `home` (modelled `.exn`); the
`"crash"` branch falls off the end of the Python function, returning
`None`. -/
def home (method : String) (s : DriveIO) : Py (Option Bool) × DriveIO :=
  pyBind (set_mode_of_operation "HMM" s) fun _ s1 =>
    if method = "in_place" then
      woStep (write_object_by_name "homing_method" 37 s1) fun w1 s2 =>
      scStep (set_control "homing_start" s2) fun c1 s3 =>
      scStep (set_control "clear_homing_start" s3) fun c2 s4 =>
      if writeToBool w1 && scToBool c1 && scToBool c2 then
        pyBind (get_actual_position s4) fun pos s5 =>
          (.ret (some (decide (pos = some 0))), s5)
      else (.ret (some false), s4)
    else if method = "crash" then
      woStep (write_object_by_name "homing_method" (-3) s1) fun _ s2 =>
      woStep (write_object_by_name "homing_current_limit" 1000 s2) fun _ s3 =>
      woStep (write_object_by_name "homing_speed_switch" 300 s3) fun _ s4 =>
      scStep (set_control "start" s4) fun _ s5 =>
      scStep (set_control "clear_homing_start" s5) fun _ s6 =>
      scStep (set_control "homing_start" s6) fun _ s7 =>
        (.ret none, s7)
    else (.ret (some false), s1)

/-- A raw reply chunk exactly as a well-formed peer would produce it: body
with zeroed CRC placeholder, CRC inserted, stuffed and framed — the same
pipeline `pack_and_write` uses to transmit. -/
def mk_frame (body : Bytes) : Bytes := byte_stuff (add_crc body (calc_crc body))

/-- Canned write acknowledgement reply: opcode 0, length 2, error 0. -/
def write_ack_frame : Bytes := mk_frame [0, 2, 0, 0, 0, 0]

/-- Canned `mode_display` read reply reporting mode `m`, with the 4-byte
data field the drive sends (the decoder reads only its first byte). -/
def mode_display_frame (m : Nat) : Bytes :=
  mk_frame [0, 4, 0, 0, 0, 0, m, 0, 0, 0]

/-- Canned control-register (`'H'`) read reply reporting value 0x0237. -/
def control_reply_frame : Bytes := mk_frame [0, 4, 0, 0, 0, 0, 0x37, 0x02, 0, 0]

/-- Canned `actual_position` (`'l'`) read reply whose value's low byte is `b`
and upper three bytes are zero. -/
def position_reply_frame (b : Nat) : Bytes :=
  mk_frame [0, 4, 0, 0, 0, 0, b, 0, 0, 0, 0, 0]

/-- Transport state after `set_control`'s control-register read. -/
def scState1 (s : DriveIO) : DriveIO := (get_control s).2

/-- Transport state after `set_control`'s mode-display read. -/
def scState2 (s : DriveIO) : DriveIO :=
  (read_object_by_name "mode_display" (scState1 s)).2

/-- Transport states reached after each successive step of
`home "in_place"`. -/
def homeState1 (s : DriveIO) : DriveIO := (set_mode_of_operation "HMM" s).2

def homeState2 (s : DriveIO) : DriveIO :=
  (write_object_by_name "homing_method" 37 (homeState1 s)).2

def homeState3 (s : DriveIO) : DriveIO :=
  (set_control "homing_start" (homeState2 s)).2

def homeState4 (s : DriveIO) : DriveIO :=
  (set_control "clear_homing_start" (homeState3 s)).2

def homeState5 (s : DriveIO) : DriveIO := (get_actual_position (homeState4 s)).2

theorem splitOnP_section_elems {α : Type} (p : α → Bool) :
    ∀ l : List α, ∀ s ∈ l.splitOnP p, ∀ x ∈ s, p x = false := by
  intro l
  induction l with
  | nil =>
    intro s hs x hx
    rw [List.splitOnP_nil] at hs
    simp only [List.mem_singleton] at hs
    subst hs
    simp at hx
  | cons a t ih =>
    intro s hs x hx
    rw [List.splitOnP_cons] at hs
    cases hpa : p a with
    | true =>
      rw [if_pos hpa] at hs
      rcases List.mem_cons.mp hs with h | h
      · subst h; simp at hx
      · exact ih s h x hx
    | false =>
      rw [if_neg (by simp [hpa])] at hs
      rcases hl : t.splitOnP p with _ | ⟨h0, rest⟩
      · exact absurd hl (List.splitOnP_ne_nil p t)
      · rw [hl, List.modifyHead_cons] at hs
        rcases List.mem_cons.mp hs with h | h
        · subst h
          rcases List.mem_cons.mp hx with rfl | hx'
          · exact hpa
          · exact ih h0 (by rw [hl]; exact List.mem_cons_self _ _) x hx'
        · exact ih s (by rw [hl]; exact List.mem_cons.mpr (Or.inr h)) x hx

theorem splitOn_section_elems (l : Bytes) : ∀ s ∈ l.splitOn DLE, DLE ∉ s := by
  intro s hs hmem
  have := splitOnP_section_elems (· == DLE) l s hs DLE hmem
  simp at this

theorem splitOn_ne_nil (l : Bytes) : l.splitOn DLE ≠ [] :=
  List.splitOnP_ne_nil _ l

/-- Splitting a doubled-`DLE` join at `DLE` interleaves the original sections
with empty sections. -/
theorem splitOn_escape_join :
    ∀ S : List Bytes, S ≠ [] → (∀ s ∈ S, DLE ∉ s) →
      (escape_join S).splitOn DLE = interleave S
  | [], h, _ => absurd rfl h
  | [s], _, hfree => by
    show s.splitOnP (· == DLE) = [s]
    exact List.splitOnP_eq_single _ _ (by
      intro x hx
      simp only [beq_iff_eq]
      intro hEq
      exact hfree s (List.mem_singleton_self s) (hEq ▸ hx))
  | s :: s' :: rest, _, hfree => by
    have hfree' : ∀ u ∈ s' :: rest, DLE ∉ u := fun u hu =>
      hfree u (List.mem_cons_of_mem _ hu)
    have ih := splitOn_escape_join (s' :: rest) (List.cons_ne_nil _ _) hfree'
    show (escape_join (s :: s' :: rest)).splitOnP (· == DLE) = _
    have hshape : escape_join (s :: s' :: rest) =
        s ++ DLE :: (DLE :: escape_join (s' :: rest)) := by
      show s ++ [DLE, DLE] ++ escape_join (s' :: rest) = _
      simp
    rw [hshape,
      List.splitOnP_first (· == DLE) s
        (by
          intro x hx
          simp only [beq_iff_eq]
          intro hEq
          exact hfree s (List.mem_cons_self _ _) (hEq ▸ hx))
        DLE (by simp) _,
      List.splitOnP_cons]
    simp only [beq_self_eq_true, if_pos]
    rw [show (escape_join (s' :: rest)).splitOnP (· == DLE) =
        (escape_join (s' :: rest)).splitOn DLE from rfl, ih]
    rfl

theorem interleave_ne_nil : ∀ S : List Bytes, S ≠ [] → interleave S ≠ []
  | [], h => absurd rfl h
  | [_], _ => List.cons_ne_nil _ _
  | _ :: _ :: _, _ => List.cons_ne_nil _ _

theorem interleave_length :
    ∀ S : List Bytes, S ≠ [] → (interleave S).length = 2 * S.length - 1
  | [], h => absurd rfl h
  | [s], _ => by simp [interleave]
  | s :: s' :: rest, _ => by
    have ih := interleave_length (s' :: rest) (List.cons_ne_nil _ _)
    show (s :: [] :: interleave (s' :: rest)).length = _
    simp only [List.length_cons, ih]
    omega

theorem everyOther_interleave : ∀ S : List Bytes, everyOther (interleave S) = S
  | [] => rfl
  | [s] => rfl
  | s :: s' :: rest => by
    show everyOther (s :: [] :: interleave (s' :: rest)) = _
    show s :: everyOther (interleave (s' :: rest)) = _
    rw [everyOther_interleave (s' :: rest)]

theorem everyOther_drop_one_interleave :
    ∀ S : List Bytes, ∀ s ∈ everyOther ((interleave S).drop 1), s = ([] : Bytes)
  | [] => by intro s hs; simp [interleave, everyOther] at hs
  | [u] => by intro s hs; simp [interleave, everyOther] at hs
  | u :: u' :: rest => by
    intro s hs
    have : (interleave (u :: u' :: rest)).drop 1 = [] :: interleave (u' :: rest) := rfl
    rw [this] at hs
    rcases hi : interleave (u' :: rest) with _ | ⟨w, ws⟩
    · exact absurd hi (interleave_ne_nil (u' :: rest) (List.cons_ne_nil _ _))
    · rw [hi] at hs
      show s = []
      have : everyOther (([] : Bytes) :: w :: ws) = [] :: everyOther ws := rfl
      rw [this] at hs
      rcases List.mem_cons.mp hs with h | h
      · exact h
      · apply everyOther_drop_one_interleave (u' :: rest) s
        rw [hi]
        exact h

theorem everyOther_dropLast_interleave :
    ∀ S : List Bytes, everyOther (interleave S).dropLast = S.dropLast
  | [] => rfl
  | [s] => rfl
  | s :: s' :: rest => by
    have hne := interleave_ne_nil (s' :: rest) (List.cons_ne_nil _ _)
    rcases hi : interleave (s' :: rest) with _ | ⟨w, ws⟩
    · exact absurd hi hne
    · show everyOther (s :: [] :: interleave (s' :: rest)).dropLast = _
      rw [hi]
      rw [List.dropLast_cons₂, List.dropLast_cons₂]
      show s :: everyOther (w :: ws).dropLast = _
      have : everyOther (interleave (s' :: rest)).dropLast = (s' :: rest).dropLast :=
        everyOther_dropLast_interleave (s' :: rest)
      rw [hi] at this
      rw [this]
      rfl

theorem getLastD_irrel : ∀ (l : List α), l ≠ [] → ∀ d d', l.getLastD d = l.getLastD d'
  | [], h => absurd rfl h
  | _ :: _, _ => fun _ _ => rfl

theorem getLastD_interleave :
    ∀ S : List Bytes, (interleave S).getLastD [] = S.getLastD []
  | [] => rfl
  | [s] => rfl
  | s :: s' :: rest => by
    have ih := getLastD_interleave (s' :: rest)
    have h1 : interleave (s :: s' :: rest) = s :: [] :: interleave (s' :: rest) := rfl
    rw [h1, List.getLastD_cons, List.getLastD_cons, List.getLastD_cons, ih]
    exact getLastD_irrel (s' :: rest) (List.cons_ne_nil _ _) [] s

theorem foldl_join_sections (S : List Bytes) :
    ∀ acc : Bytes, S.foldl (fun acc s => acc ++ s ++ [DLE]) acc = acc ++ join_sections S := by
  induction S with
  | nil => intro acc; simp [join_sections]
  | cons s rest ih =>
    intro acc
    show (rest.foldl (fun acc s => acc ++ s ++ [DLE]) (acc ++ s ++ [DLE])) = _
    rw [ih]
    simp [join_sections]

theorem join_sections_dropLast_getLastD :
    ∀ S : List Bytes, S ≠ [] →
      join_sections S.dropLast ++ S.getLastD [] = [DLE].intercalate S
  | [], h => absurd rfl h
  | [s], _ => by
    simp [join_sections, List.intercalate]
  | s :: s' :: rest, _ => by
    have ih := join_sections_dropLast_getLastD (s' :: rest) (List.cons_ne_nil _ _)
    rw [List.dropLast_cons₂, List.getLastD_cons]
    show (s ++ [DLE] ++ join_sections (s' :: rest).dropLast) ++ (s' :: rest).getLastD s =
      [DLE].intercalate (s :: s' :: rest)
    rw [getLastD_irrel (s' :: rest) (List.cons_ne_nil _ _) s []]
    rw [List.intercalate, List.intersperse_cons₂, List.flatten_cons, List.flatten_cons]
    rw [List.intercalate] at ih
    simp only [List.append_assoc]
    rw [ih]

/-- C1: byte-stuffing round-trip.  For every byte sequence `p` — including the
empty sequence, all-`DLE` sequences, and mixed sequences with `DLE` anywhere —
unstuffing the stuffed frame recovers `p` exactly:
`byte_unstuff (byte_stuff p) = some p`. -/
theorem claim_C1_byte_stuff_roundtrip (p : Bytes) :
    byte_unstuff (byte_stuff p) = some p := by
  have hSne : p.splitOn DLE ≠ [] := splitOn_ne_nil p
  have hfree := splitOn_section_elems p
  have htake : (byte_stuff p).take 2 = [DLE, STX] := rfl
  have hdrop : (byte_stuff p).drop 2 = escape_join (p.splitOn DLE) := rfl
  have hsplit : (escape_join (p.splitOn DLE)).splitOn DLE = interleave (p.splitOn DLE) :=
    splitOn_escape_join _ hSne hfree
  have hlen : (interleave (p.splitOn DLE)).length % 2 = 1 := by
    rw [interleave_length _ hSne]
    have : 0 < (p.splitOn DLE).length := List.length_pos.mpr hSne
    omega
  have hdrop1 := everyOther_drop_one_interleave (p.splitOn DLE)
  simp only [byte_unstuff, htake, hdrop, hsplit, hlen, if_true]
  rw [if_pos ⟨trivial, hdrop1⟩]
  rw [foldl_join_sections, everyOther_dropLast_interleave, getLastD_interleave]
  rw [List.nil_append, join_sections_dropLast_getLastD _ hSne, List.intercalate_splitOn]

/-! ### C3: the validation criterion of `byte_unstuff` -/

theorem everyOther_cons (x : α) (l : List α) :
    everyOther (x :: l) = x :: everyOther (l.drop 1) := by
  cases l <;> rfl

theorem everyOther_drop1_empty_iff :
    ∀ l : List Bytes,
      (∀ s ∈ everyOther (l.drop 1), s = ([] : Bytes)) ↔
      (∀ k, k < l.length → k % 2 = 1 → l.getD k [] = [])
  | [] => by
    constructor
    · intro _ k hk _
      exact absurd hk (by simp)
    · intro _ s hs
      simp [everyOther] at hs
  | [a] => by
    constructor
    · intro _ k hk hk2
      exfalso
      simp only [List.length_singleton] at hk
      omega
    · intro _ s hs
      simp [everyOther] at hs
  | a :: b :: t => by
    have ih := everyOther_drop1_empty_iff t
    have h1 : (a :: b :: t).drop 1 = b :: t := rfl
    rw [h1, everyOther_cons]
    constructor
    · intro h k hk hk2
      simp only [List.length_cons] at hk
      match k, hk2 with
      | 1, _ =>
        exact h b (List.mem_cons_self _ _)
      | (j+2), hj =>
        show t.getD j [] = []
        refine ih.mp ?_ j (by omega) (by omega)
        intro s hs
        exact h s (List.mem_cons_of_mem _ hs)
    · intro h s hs
      rcases List.mem_cons.mp hs with rfl | hs'
      · have := h 1 (by simp) (by norm_num)
        simpa using this
      · refine (ih.mpr ?_) s hs'
        intro k hk hk2
        have := h (k + 2) (by simp; omega) (by omega)
        simpa using this

theorem byte_unstuff_ne_none_iff (ba : Bytes) :
    byte_unstuff ba ≠ none ↔
      (ba.take 2 = [DLE, STX] ∧
       ((ba.drop 2).splitOn DLE).length % 2 = 1 ∧
       ∀ s ∈ everyOther (((ba.drop 2).splitOn DLE).drop 1), s = ([] : Bytes)) := by
  simp only [byte_unstuff]
  split_ifs with h1 h2
  · simp only [ne_eq, reduceCtorEq, not_false_eq_true, true_iff]
    exact ⟨h1, h2.1, h2.2⟩
  · simp only [ne_eq, not_true_eq_false, false_iff, not_and]
    intro _ hlen hall
    exact h2 ⟨hlen, hall⟩
  · simp only [ne_eq, not_true_eq_false, false_iff, not_and]
    intro hc
    exact absurd hc h1

/-- C3 counterexample: the frame `90 02 61` has a single, non-empty segment
at even index 0, so the claimed criterion rejects it, yet `byte_unstuff`
accepts it and returns `61`.  The code checks the segments at odd (0-based)
positions (Python slice `split[1::2]`, line 167), not the even-indexed ones. -/
theorem claim_C3_counterexample :
    byte_unstuff [0x90, 0x02, 0x61] = some [0x61] ∧
    ¬ unstuff_claimed_criterion [0x90, 0x02, 0x61] := by
  constructor
  · decide
  · decide

/-- C3 (amended): `byte_unstuff` succeeds exactly on inputs that begin with
`DLE, STX` and whose remainder, split on `DLE`, produces an odd number of
segments in which every odd-indexed segment (0-based) is empty; any input
lacking the preamble, containing a single unpaired `DLE`, or containing a
non-empty segment at an odd position fails (returns `none`). -/
theorem claim_C3_unstuff_validation (ba : Bytes) :
    byte_unstuff ba ≠ none ↔
      (ba.take 2 = [DLE, STX] ∧
       ((ba.drop 2).splitOn DLE).length % 2 = 1 ∧
       ∀ k, k < ((ba.drop 2).splitOn DLE).length → k % 2 = 1 →
         ((ba.drop 2).splitOn DLE).getD k [] = []) := by
  rw [byte_unstuff_ne_none_iff ba,
    everyOther_drop1_empty_iff ((ba.drop 2).splitOn DLE)]

/-- C3 witness: a concrete application of the amended equivalence.  The frame
`90 02 61 90 90` satisfies the amended criterion, hence unstuffing succeeds. -/
theorem claim_C3_unstuff_validation_witness :
    byte_unstuff [0x90, 0x02, 0x61, 0x90, 0x90] ≠ none :=
  (claim_C3_unstuff_validation [0x90, 0x02, 0x61, 0x90, 0x90]).mpr (by decide)

theorem crc_word_step_eq (w c k : Nat) :
    crc_word_step w c (2 ^ k) = stepB c (w.testBit k).toNat := by
  cases htb : w.testBit k with
  | false =>
    have hand : w &&& 2 ^ k = 0 := by rw [Nat.and_two_pow, htb]; simp
    simp [crc_word_step, stepB, hand]
  | true =>
    have hand : w &&& 2 ^ k ≠ 0 := by
      rw [Nat.and_two_pow, htb]
      simp
    simp [crc_word_step, stepB, hand]

theorem crc_word_loop_eq (w : Nat) : ∀ (k : Nat) (c : Nat),
    crc_word_loop w c k = (bitsMSB w k).foldl stepB c := by
  intro k
  induction k with
  | zero => intro c; rfl
  | succ k ih =>
    intro c
    show crc_word_loop w (crc_word_step w c (2 ^ k)) k = _
    rw [ih, crc_word_step_eq]
    rfl

theorem crc_words_eq (ws : List Nat) : ∀ c : Nat,
    ws.foldl (fun CRC word => crc_word_loop word CRC 16) c = (bitstream ws).foldl stepB c := by
  induction ws with
  | nil => intro c; rfl
  | cons w ws ih =>
    intro c
    show ws.foldl _ (crc_word_loop w c 16) = (wordBits w ++ bitstream ws).foldl stepB c
    rw [ih, crc_word_loop_eq, List.foldl_append]
    rfl

theorem calc_crc_eq_stream (ba : Bytes) :
    calc_crc ba = [((bitstream (le_words ba)).foldl stepB 0) % 256,
                   ((bitstream (le_words ba)).foldl stepB 0) / 256 % 256] := by
  unfold calc_crc
  rw [crc_words_eq]

theorem xor_right_cancel {a b k : Nat} (h : a ^^^ k = b ^^^ k) : a = b := by
  have h2 : (a ^^^ k) ^^^ k = (b ^^^ k) ^^^ k := by rw [h]
  rwa [Nat.xor_assoc, Nat.xor_self, Nat.xor_zero, Nat.xor_assoc, Nat.xor_self,
    Nat.xor_zero] at h2

theorem carry_iff (c : Nat) (hc : c < 2 ^ 16) : c &&& 0x8000 ≠ 0 ↔ 2 ^ 15 ≤ c := by
  rw [show (0x8000 : Nat) = 2 ^ 15 from rfl, Nat.and_two_pow, Nat.toNat_testBit]
  constructor <;> intro h <;> omega

theorem stepB_lt {c b : Nat} (hc : c < 2 ^ 16) (hb : b < 2) : stepB c b < 2 ^ 16 := by
  unfold stepB
  split_ifs with h
  · refine Nat.xor_lt_two_pow ?_ (by norm_num)
    have h1 : ((c <<< 1) + b) &&& 0xffff ≤ 0xffff := Nat.and_le_right
    norm_num at h1 ⊢
    omega
  · have hc15 : c < 2 ^ 15 := by
      by_contra hge
      exact h ((carry_iff c hc).mpr (by omega))
    rw [Nat.shiftLeft_eq]
    norm_num at hc15 ⊢
    omega

theorem and_ffff_eq_mod (n : Nat) : n &&& 0xffff = n % 2 ^ 16 := by
  rw [show (0xffff : Nat) = 2 ^ 16 - 1 from rfl, Nat.and_pow_two_sub_one_eq_mod]

/-- Folding in the (odd) polynomial `0x1021` flips the parity. -/
theorem xor_pol_parity (A : Nat) : (A ^^^ 0x1021) % 2 ≠ A % 2 := by
  have h0 := Nat.testBit_xor A 0x1021 0
  rw [Nat.testBit_zero, Nat.testBit_zero, Nat.testBit_zero] at h0
  rcases Nat.mod_two_eq_zero_or_one A with h | h <;>
    rcases Nat.mod_two_eq_zero_or_one (A ^^^ 0x1021) with h2 | h2 <;>
      simp [h, h2] at h0 ⊢

/-- A single CRC step is injective in the state for a fixed input bit. -/
theorem stepB_inj {x y b : Nat} (hx : x < 2 ^ 16) (hy : y < 2 ^ 16) (hb : b < 2)
    (hne : x ≠ y) : stepB x b ≠ stepB y b := by
  have hmix : ∀ u v : Nat, u < 2 ^ 16 → v < 2 ^ 16 → u &&& 0x8000 ≠ 0 →
      ¬(v &&& 0x8000 ≠ 0) → stepB u b ≠ stepB v b := by
    intro u v hu hv hcu hcv hEq
    unfold stepB at hEq
    rw [if_pos hcu, if_neg hcv, and_ffff_eq_mod, Nat.shiftLeft_eq, Nat.shiftLeft_eq] at hEq
    norm_num at hEq
    have hpar := xor_pol_parity ((u * 2 + b) % 65536)
    rw [hEq] at hpar
    have hA : (u * 2 + b) % 65536 % 2 = b % 2 := by
      rw [Nat.mod_mod_of_dvd _ (by norm_num)]
      omega
    omega
  intro hEq
  by_cases hcx : x &&& 0x8000 ≠ 0 <;> by_cases hcy : y &&& 0x8000 ≠ 0
  · unfold stepB at hEq
    rw [if_pos hcx, if_pos hcy, and_ffff_eq_mod, and_ffff_eq_mod,
      Nat.shiftLeft_eq, Nat.shiftLeft_eq] at hEq
    have h1 := xor_right_cancel hEq
    have hx15 := (carry_iff x hx).mp hcx
    have hy15 := (carry_iff y hy).mp hcy
    norm_num at h1 hx15 hy15 hx hy
    omega
  · exact hmix x y hx hy hcx hcy hEq
  · exact (hmix y x hy hx hcy hcx hEq.symm)
  · unfold stepB at hEq
    rw [if_neg hcx, if_neg hcy, Nat.shiftLeft_eq, Nat.shiftLeft_eq] at hEq
    omega

/-- A single CRC step distinguishes the two possible input bits. -/
theorem stepB_bit_ne (c : Nat) : stepB c 0 ≠ stepB c 1 := by
  unfold stepB
  split_ifs with h
  · intro hEq
    have h1 := xor_right_cancel hEq
    rw [and_ffff_eq_mod, and_ffff_eq_mod, Nat.shiftLeft_eq] at h1
    omega
  · omega

theorem foldl_stepB_lt : ∀ (v : List Nat) (c : Nat), c < 2 ^ 16 → (∀ b ∈ v, b < 2) →
    v.foldl stepB c < 2 ^ 16
  | [], c, hc, _ => hc
  | b :: v, c, hc, hv => by
    show v.foldl stepB (stepB c b) < 2 ^ 16
    exact foldl_stepB_lt v _ (stepB_lt hc (hv b (List.mem_cons_self _ _)))
      (fun x hx => hv x (List.mem_cons_of_mem _ hx))

theorem foldl_stepB_inj : ∀ (v : List Nat) (x y : Nat), x < 2 ^ 16 → y < 2 ^ 16 →
    (∀ b ∈ v, b < 2) → x ≠ y → v.foldl stepB x ≠ v.foldl stepB y
  | [], _, _, _, _, _, hne => hne
  | b :: v, x, y, hx, hy, hv, hne => by
    show v.foldl stepB (stepB x b) ≠ v.foldl stepB (stepB y b)
    have hb := hv b (List.mem_cons_self _ _)
    exact foldl_stepB_inj v _ _ (stepB_lt hx hb) (stepB_lt hy hb)
      (fun z hz => hv z (List.mem_cons_of_mem _ hz)) (stepB_inj hx hy hb hne)

/-- Two bit streams that differ in exactly one position have different CRCs. -/
theorem foldl_stepB_flip (u v : List Nat) (b : Nat) (hb : b < 2)
    (hu : ∀ x ∈ u, x < 2) (hv : ∀ x ∈ v, x < 2) :
    (u ++ b :: v).foldl stepB 0 ≠ (u ++ (b ^^^ 1) :: v).foldl stepB 0 := by
  rw [List.foldl_append, List.foldl_append]
  have hclt : u.foldl stepB 0 < 2 ^ 16 := foldl_stepB_lt u 0 (by norm_num) hu
  show v.foldl stepB (stepB (u.foldl stepB 0) b) ≠
    v.foldl stepB (stepB (u.foldl stepB 0) (b ^^^ 1))
  have hbflip : b ^^^ 1 < 2 := by
    have hb1 : b < 2 ^ 1 := hb
    have h11 : (1 : Nat) < 2 ^ 1 := by norm_num
    have h2 := Nat.xor_lt_two_pow hb1 h11
    omega
  refine foldl_stepB_inj v _ _ (stepB_lt hclt hb) (stepB_lt hclt hbflip) hv ?_
  rcases (by omega : b = 0 ∨ b = 1) with rfl | rfl
  · exact stepB_bit_ne (u.foldl stepB 0)
  · exact (stepB_bit_ne (u.foldl stepB 0)).symm

theorem bitsMSB_congr (w w' : Nat) :
    ∀ k, (∀ m, m < k → w.testBit m = w'.testBit m) → bitsMSB w k = bitsMSB w' k
  | 0, _ => rfl
  | k+1, h => by
    show (w.testBit k).toNat :: bitsMSB w k = (w'.testBit k).toNat :: bitsMSB w' k
    rw [h k (Nat.lt_succ_self k), bitsMSB_congr w w' k (fun m hm => h m (by omega))]

theorem bitsMSB_flip (w j : Nat) : ∀ k, j < k →
    ∃ u b v, bitsMSB w k = u ++ b :: v ∧
      bitsMSB (w ^^^ 2 ^ j) k = u ++ (b ^^^ 1) :: v ∧ b < 2
  | 0, h => absurd h (by omega)
  | k+1, h => by
    by_cases hjk : j = k
    · subst hjk
      refine ⟨[], (w.testBit j).toNat, bitsMSB w j, rfl, ?_, by cases w.testBit j <;> simp⟩
      show ((w ^^^ 2 ^ j).testBit j).toNat :: bitsMSB (w ^^^ 2 ^ j) j =
        ((w.testBit j).toNat ^^^ 1) :: bitsMSB w j
      rw [Nat.testBit_xor, Nat.testBit_two_pow_self,
        bitsMSB_congr (w ^^^ 2 ^ j) w j (fun m hm => by
          rw [Nat.testBit_xor, Nat.testBit_two_pow_of_ne (by omega : j ≠ m)]
          cases w.testBit m <;> rfl)]
      cases w.testBit j <;> rfl
    · obtain ⟨u, b, v, h1, h2, hb⟩ := bitsMSB_flip w j k (by omega)
      refine ⟨(w.testBit k).toNat :: u, b, v, ?_, ?_, hb⟩
      · show (w.testBit k).toNat :: bitsMSB w k = _
        rw [h1]
        rfl
      · show ((w ^^^ 2 ^ j).testBit k).toNat :: bitsMSB (w ^^^ 2 ^ j) k = _
        rw [Nat.testBit_xor, Nat.testBit_two_pow_of_ne (by omega : j ≠ k), h2]
        cases w.testBit k <;> rfl

theorem wordBits_flip (w j : Nat) (hj : j < 16) :
    ∃ u b v, wordBits w = u ++ b :: v ∧
      wordBits (w ^^^ 2 ^ j) = u ++ (b ^^^ 1) :: v ∧ b < 2 :=
  bitsMSB_flip w j 16 hj

theorem word_flip_lo (b0 b1 i : Nat) (h0 : b0 < 256) (hi : i < 8) :
    (b0 ^^^ 2 ^ i) + 256 * b1 = (b0 + 256 * b1) ^^^ 2 ^ i := by
  have hpow : (2 : Nat) ^ i < 2 ^ 8 := Nat.pow_lt_pow_right (by norm_num) hi
  have hflip : b0 ^^^ 2 ^ i < 256 := by
    have h08 : b0 < 2 ^ 8 := h0
    have h2 := Nat.xor_lt_two_pow h08 hpow
    omega
  apply Nat.eq_of_testBit_eq
  intro m
  rw [show (b0 ^^^ 2 ^ i) + 256 * b1 = 2 ^ 8 * b1 + (b0 ^^^ 2 ^ i) by ring,
    show b0 + 256 * b1 = 2 ^ 8 * b1 + b0 by ring,
    Nat.testBit_xor, Nat.testBit_mul_pow_two_add _ hflip,
    Nat.testBit_mul_pow_two_add _ h0]
  by_cases hm : m < 8
  · simp [hm, Nat.testBit_xor]
  · rw [if_neg hm, if_neg hm, Nat.testBit_two_pow_of_ne (by omega : i ≠ m)]
    cases b1.testBit (m - 8) <;> rfl

theorem word_flip_hi (b0 b1 i : Nat) (h0 : b0 < 256) (hi : i < 8) :
    b0 + 256 * (b1 ^^^ 2 ^ i) = (b0 + 256 * b1) ^^^ 2 ^ (8 + i) := by
  apply Nat.eq_of_testBit_eq
  intro m
  rw [show b0 + 256 * (b1 ^^^ 2 ^ i) = 2 ^ 8 * (b1 ^^^ 2 ^ i) + b0 by ring,
    show b0 + 256 * b1 = 2 ^ 8 * b1 + b0 by ring,
    Nat.testBit_xor, Nat.testBit_mul_pow_two_add _ h0,
    Nat.testBit_mul_pow_two_add _ h0]
  by_cases hm : m < 8
  · rw [if_pos hm, if_pos hm, Nat.testBit_two_pow_of_ne (by omega : 8 + i ≠ m)]
    cases b0.testBit m <;> rfl
  · rw [if_neg hm, if_neg hm, Nat.testBit_xor,
      show ((2 : Nat) ^ (8 + i)).testBit m = ((2 : Nat) ^ i).testBit (m - 8) by
        rw [Nat.testBit_two_pow, Nat.testBit_two_pow]
        simp only [decide_eq_decide]
        omega]

theorem bitsMSB_lt_two (w : Nat) : ∀ k, ∀ x ∈ bitsMSB w k, x < 2
  | 0, x, hx => by simp [bitsMSB] at hx
  | k+1, x, hx => by
    rcases List.mem_cons.mp hx with rfl | hx'
    · cases w.testBit k <;> simp
    · exact bitsMSB_lt_two w k x hx'

theorem bitstream_lt_two : ∀ ws : List Nat, ∀ x ∈ bitstream ws, x < 2
  | [], x, hx => by simp [bitstream] at hx
  | w :: ws, x, hx => by
    rcases List.mem_append.mp hx with h | h
    · exact bitsMSB_lt_two w 16 x h
    · exact bitstream_lt_two ws x h

/-- Flipping one bit of one byte flips exactly one position of the bit
stream that `calc_crc` consumes. -/
theorem bitstream_flip :
    ∀ (d : Bytes) (p i : Nat), p < d.length → i < 8 → d.length % 2 = 0 →
      (∀ x ∈ d, x < 256) →
      ∃ u b v, bitstream (le_words d) = u ++ b :: v ∧
        bitstream (le_words (flipBit d p i)) = u ++ (b ^^^ 1) :: v ∧ b < 2
  | [], p, i, hp, _, _, _ => absurd hp (by simp)
  | [a], _, _, _, _, heven, _ => absurd heven (by simp)
  | b0 :: b1 :: rest, p, i, hp, hi, heven, hbytes => by
    have h0 : b0 < 256 := hbytes b0 (List.mem_cons_self _ _)
    have h1 : b1 < 256 := hbytes b1 (List.mem_cons_of_mem _ (List.mem_cons_self _ _))
    match p with
    | 0 =>
      obtain ⟨u, b, v, hw1, hw2, hb⟩ := wordBits_flip (b0 + 256 * b1) i (by omega)
      refine ⟨u, b, v ++ bitstream (le_words rest), ?_, ?_, hb⟩
      · show wordBits (b0 + 256 * b1) ++ bitstream (le_words rest) = _
        rw [hw1]
        simp
      · show wordBits ((b0 ^^^ 2 ^ i) + 256 * b1) ++ bitstream (le_words rest) = _
        rw [word_flip_lo b0 b1 i h0 hi, hw2]
        simp
    | 1 =>
      obtain ⟨u, b, v, hw1, hw2, hb⟩ := wordBits_flip (b0 + 256 * b1) (8 + i) (by omega)
      refine ⟨u, b, v ++ bitstream (le_words rest), ?_, ?_, hb⟩
      · show wordBits (b0 + 256 * b1) ++ bitstream (le_words rest) = _
        rw [hw1]
        simp
      · show wordBits (b0 + 256 * (b1 ^^^ 2 ^ i)) ++ bitstream (le_words rest) = _
        rw [word_flip_hi b0 b1 i h0 hi, hw2]
        simp
    | q + 2 =>
      obtain ⟨u, b, v, hr1, hr2, hb⟩ := bitstream_flip rest q i
        (by simp only [List.length_cons] at hp; omega) hi
        (by simp only [List.length_cons] at heven ⊢; omega)
        (fun x hx => hbytes x (List.mem_cons_of_mem _ (List.mem_cons_of_mem _ hx)))
      refine ⟨wordBits (b0 + 256 * b1) ++ u, b, v, ?_, ?_, hb⟩
      · show wordBits (b0 + 256 * b1) ++ bitstream (le_words rest) = _
        rw [hr1]
        simp
      · show bitstream (le_words (b0 :: b1 :: flipBit rest q i)) = _
        show wordBits (b0 + 256 * b1) ++ bitstream (le_words (flipBit rest q i)) = _
        rw [hr2]
        simp

/-- Flipping one bit of the (even-length) data changes its CRC. -/
theorem calc_crc_flip_ne (d : Bytes) (p i : Nat) (hp : p < d.length) (hi : i < 8)
    (heven : d.length % 2 = 0) (hbytes : ∀ x ∈ d, x < 256) :
    calc_crc (flipBit d p i) ≠ calc_crc d := by
  obtain ⟨u, b, v, h1, h2, hb⟩ := bitstream_flip d p i hp hi heven hbytes
  have hu : ∀ x ∈ u, x < 2 := by
    intro x hx
    refine bitstream_lt_two (le_words d) x ?_
    rw [h1]
    exact List.mem_append.mpr (Or.inl hx)
  have hv : ∀ x ∈ v, x < 2 := by
    intro x hx
    refine bitstream_lt_two (le_words d) x ?_
    rw [h1]
    exact List.mem_append.mpr (Or.inr (List.mem_cons_of_mem _ hx))
  have hCne : (bitstream (le_words (flipBit d p i))).foldl stepB 0 ≠
      (bitstream (le_words d)).foldl stepB 0 := by
    rw [h1, h2]
    exact (foldl_stepB_flip u v b hb hu hv).symm
  have hlt1 : (bitstream (le_words (flipBit d p i))).foldl stepB 0 < 2 ^ 16 := by
    refine foldl_stepB_lt _ 0 (by norm_num) ?_
    exact bitstream_lt_two (le_words (flipBit d p i))
  have hlt2 : (bitstream (le_words d)).foldl stepB 0 < 2 ^ 16 := by
    refine foldl_stepB_lt _ 0 (by norm_num) ?_
    exact bitstream_lt_two (le_words d)
  intro hEq
  rw [calc_crc_eq_stream, calc_crc_eq_stream] at hEq
  simp only [List.cons.injEq, and_true] at hEq
  apply hCne
  norm_num at hlt1 hlt2
  omega

/-- A one-bit flip inside a list changes the list. -/
theorem set_flip_ne (l : Bytes) (q i : Nat) (hq : q < l.length) :
    l.set q (l.getD q 0 ^^^ 2 ^ i) ≠ l := by
  intro hEq
  have h2 : (l.set q (l.getD q 0 ^^^ 2 ^ i)).getD q 0 = l.getD q 0 := by rw [hEq]
  rw [List.getD_eq_getElem _ _ (by simpa using hq), List.getElem_set_self,
    List.getD_eq_getElem _ _ hq] at h2
  have h3 : (2 : Nat) ^ i = 0 := by
    have h4 : l[q] ^^^ 2 ^ i = l[q] ^^^ 0 := by
      rw [Nat.xor_zero]
      exact h2
    rw [Nat.xor_comm _ (2 ^ i), Nat.xor_comm _ 0] at h4
    exact xor_right_cancel h4
  exact absurd h3 (Nat.two_pow_pos i).ne'

theorem calc_crc_length (ba : Bytes) : (calc_crc ba).length = 2 := by
  rw [calc_crc_eq_stream]
  rfl

theorem flipBit_length (l : Bytes) (p i : Nat) : (flipBit l p i).length = l.length := by
  simp [flipBit]

theorem flipBit_append_left (A B : Bytes) (p i : Nat) (hp : p < A.length) :
    flipBit (A ++ B) p i = flipBit A p i ++ B := by
  unfold flipBit
  rw [List.getD_append _ _ _ _ hp, List.set_append_left _ _ hp]

theorem flipBit_append_right (A B : Bytes) (p i : Nat) (hp : A.length ≤ p) :
    flipBit (A ++ B) p i = A ++ flipBit B (p - A.length) i := by
  unfold flipBit
  rw [List.getD_append_right _ _ _ _ hp, List.set_append_right _ _ hp]

/-- C2: CRC self-consistency.  For every even-length byte sequence `d` (of
length at least 2, with byte-sized entries) whose trailing two bytes are
zero, replacing the two placeholder bytes with `calc_crc d` yields a frame
that `crc_match` accepts, and flipping any single bit of that frame (bit `i`
of the byte at position `p`) makes `crc_match` reject it. -/
theorem claim_C2_crc_self_consistency (d : Bytes)
    (heven : d.length % 2 = 0) (hlen2 : 2 ≤ d.length)
    (hbytes : ∀ x ∈ d, x < 256)
    (htail : d.drop (d.length - 2) = [0, 0]) :
    crc_match (add_crc d (calc_crc d)) = Py.ret true ∧
    (∀ p i, p < (add_crc d (calc_crc d)).length → i < 8 →
      crc_match (flipBit (add_crc d (calc_crc d)) p i) = Py.ret false) := by
  have hAlen : (d.take (d.length - 2)).length = d.length - 2 := by
    rw [List.length_take]
    omega
  have hclen := calc_crc_length d
  have hframelen : (add_crc d (calc_crc d)).length = d.length := by
    simp only [add_crc, List.length_append, hAlen, hclen]
    omega
  have hA2 : (d.take (d.length - 2)).length = (add_crc d (calc_crc d)).length - 2 := by
    rw [hframelen, hAlen]
  have hTake : (add_crc d (calc_crc d)).take ((add_crc d (calc_crc d)).length - 2) =
      d.take (d.length - 2) := List.take_left' hA2
  have hDrop : (add_crc d (calc_crc d)).drop ((add_crc d (calc_crc d)).length - 2) =
      calc_crc d := List.drop_left' hA2
  have hData : d.take (d.length - 2) ++ ([0, 0] : Bytes) = d := by
    rw [← htail, List.take_append_drop]
  constructor
  · simp only [crc_match, hTake, hDrop, hData, heven, if_pos]
    simp
  · intro p i hp hi
    rw [hframelen] at hp
    by_cases hpA : p < d.length - 2
    · -- the flip lands in the data part of the frame
      have hflipframe : flipBit (add_crc d (calc_crc d)) p i =
          flipBit (d.take (d.length - 2)) p i ++ calc_crc d :=
        flipBit_append_left _ _ p i (by rw [hAlen]; omega)
      have hd' : flipBit d p i = flipBit (d.take (d.length - 2)) p i ++ [0, 0] := by
        conv_lhs => rw [← hData]
        exact flipBit_append_left _ _ p i (by rw [hAlen]; omega)
      have hflen : (flipBit (d.take (d.length - 2)) p i).length =
          (flipBit (add_crc d (calc_crc d)) p i).length - 2 := by
        rw [flipBit_length, flipBit_length, hAlen, hframelen]
      have hTake' : (flipBit (add_crc d (calc_crc d)) p i).take
          ((flipBit (add_crc d (calc_crc d)) p i).length - 2) =
          flipBit (d.take (d.length - 2)) p i := by
        rw [hflipframe]
        exact List.take_left' (by rw [← hflipframe]; exact hflen)
      have hDrop' : (flipBit (add_crc d (calc_crc d)) p i).drop
          ((flipBit (add_crc d (calc_crc d)) p i).length - 2) = calc_crc d := by
        rw [hflipframe]
        exact List.drop_left' (by rw [← hflipframe]; exact hflen)
      have hDataEq : (flipBit (add_crc d (calc_crc d)) p i).take
          ((flipBit (add_crc d (calc_crc d)) p i).length - 2) ++ ([0, 0] : Bytes) =
          flipBit d p i := by
        rw [hTake', ← hd']
      have hflipdlen : (flipBit d p i).length % 2 = 0 := by
        rw [flipBit_length]
        exact heven
      simp only [crc_match, hDataEq, hDrop']
      rw [if_pos hflipdlen]
      have hne : calc_crc d ≠ calc_crc (flipBit d p i) :=
        (calc_crc_flip_ne d p i (by omega) hi heven hbytes).symm
      simp [hne]
    · -- the flip lands in the CRC bytes
      have hpge : (d.take (d.length - 2)).length ≤ p := by rw [hAlen]; omega
      have hflipframe : flipBit (add_crc d (calc_crc d)) p i =
          d.take (d.length - 2) ++
            flipBit (calc_crc d) (p - (d.take (d.length - 2)).length) i :=
        flipBit_append_right _ _ p i hpge
      have hflen2 : (d.take (d.length - 2)).length =
          (flipBit (add_crc d (calc_crc d)) p i).length - 2 := by
        rw [flipBit_length, hAlen, hframelen]
      have hTake' : (flipBit (add_crc d (calc_crc d)) p i).take
          ((flipBit (add_crc d (calc_crc d)) p i).length - 2) = d.take (d.length - 2) := by
        rw [hflipframe]
        refine List.take_left' ?_
        rw [← hflipframe]
        exact hflen2
      have hDrop' : (flipBit (add_crc d (calc_crc d)) p i).drop
          ((flipBit (add_crc d (calc_crc d)) p i).length - 2) =
          flipBit (calc_crc d) (p - (d.take (d.length - 2)).length) i := by
        rw [hflipframe]
        refine List.drop_left' ?_
        rw [← hflipframe]
        exact hflen2
      have hDataEq : (flipBit (add_crc d (calc_crc d)) p i).take
          ((flipBit (add_crc d (calc_crc d)) p i).length - 2) ++ ([0, 0] : Bytes) = d := by
        rw [hTake', hData]
      simp only [crc_match, hDataEq, hDrop']
      rw [if_pos heven]
      have hlt : p - (d.take (d.length - 2)).length < (calc_crc d).length := by
        rw [hclen, hAlen]
        omega
      have hne : flipBit (calc_crc d) (p - (d.take (d.length - 2)).length) i ≠
          calc_crc d := set_flip_ne _ _ i hlt
      rw [hAlen] at hne
      simp [hne]

/-- C2 witness: the CRC self-consistency theorem applied to the concrete
frame `12 34 00 00`. -/
theorem claim_C2_crc_self_consistency_witness :
    crc_match (add_crc [0x12, 0x34, 0, 0] (calc_crc [0x12, 0x34, 0, 0])) = Py.ret true ∧
    crc_match (flipBit (add_crc [0x12, 0x34, 0, 0] (calc_crc [0x12, 0x34, 0, 0])) 0 3) =
      Py.ret false := by
  have h := claim_C2_crc_self_consistency [0x12, 0x34, 0, 0] (by decide) (by decide)
    (by decide) (by decide)
  exact ⟨h.1, h.2 0 3 (by decide) (by decide)⟩

/-! ### C4: the masked control-register update -/

/-- C4: control-register masked update.  `set_control` computes the value it
writes with `applyMask` (line 373): for all 16-bit `existing`, `mask`,
`value`, the bits outside the mask are provably unchanged,
`applyMask existing mask value &&& ~mask = existing &&& ~mask` (with `~mask`
the 16-bit complement `0xffff ^^^ mask`); and every entry
`(mask, value, mode)` of the static command table satisfies
`value &&& ~mask = 0`. -/
theorem claim_C4_masked_update :
    (∀ existing mask value : Nat,
      existing < 2 ^ 16 → mask < 2 ^ 16 → value < 2 ^ 16 →
      applyMask existing mask value &&& (0xffff ^^^ mask) =
        existing &&& (0xffff ^^^ mask)) ∧
    (∀ e ∈ control, e.2.2.1 &&& (0xffff ^^^ e.2.1) = 0) := by
  constructor
  · intro existing mask value hex hm hv
    apply Nat.eq_of_testBit_eq
    intro j
    simp only [applyMask, Nat.testBit_and, Nat.testBit_or, Nat.testBit_xor]
    by_cases hj : j < 16
    · have hffff : (0xffff : Nat).testBit j = true := by
        rw [show (0xffff : Nat) = 2 ^ 16 - 1 from rfl, Nat.testBit_two_pow_sub_one]
        simpa using hj
      rw [hffff]
      cases existing.testBit j <;> cases mask.testBit j <;> cases value.testBit j <;> rfl
    · have h1 : existing.testBit j = false := Nat.testBit_lt_two_pow (by
        calc existing < 2 ^ 16 := hex
          _ ≤ 2 ^ j := Nat.pow_le_pow_right (by norm_num) (by omega))
      have h2 : mask.testBit j = false := Nat.testBit_lt_two_pow (by
        calc mask < 2 ^ 16 := hm
          _ ≤ 2 ^ j := Nat.pow_le_pow_right (by norm_num) (by omega))
      have h3 : value.testBit j = false := Nat.testBit_lt_two_pow (by
        calc value < 2 ^ 16 := hv
          _ ≤ 2 ^ j := Nat.pow_le_pow_right (by norm_num) (by omega))
      have h4 : (0xffff : Nat).testBit j = false := Nat.testBit_lt_two_pow (by
        calc (0xffff : Nat) < 2 ^ 16 := by norm_num
          _ ≤ 2 ^ j := Nat.pow_le_pow_right (by norm_num) (by omega))
      rw [h1, h2, h3, h4]
      rfl
  · decide

/-- C4 witness: the update for command `shutdown` (mask `0x0087`, value
`0x0006`) on the concrete register value `0x1234` leaves the bits outside
the mask unchanged. -/
theorem claim_C4_masked_update_witness :
    applyMask 0x1234 0x0087 0x0006 &&& (0xffff ^^^ 0x0087) =
      0x1234 &&& (0xffff ^^^ 0x0087) :=
  claim_C4_masked_update.1 0x1234 0x0087 0x0006 (by norm_num) (by norm_num) (by norm_num)

/-! ### C5: write request frame layout -/

theorem rau_nil (sentl : List Bytes) :
    read_and_unpack ⟨[], sentl⟩ = (.ret none, ⟨[], sentl⟩) := rfl

theorem rau_unstuff_fail {chunk : Bytes} (rest sentl : List Bytes)
    (h : byte_unstuff chunk = none) :
    read_and_unpack ⟨chunk :: rest, sentl⟩ = (.ret none, ⟨rest, sentl⟩) := by
  simp [read_and_unpack, h]

theorem rau_crc_exn {chunk u : Bytes} (rest sentl : List Bytes)
    (h1 : byte_unstuff chunk = some u) (h2 : crc_match u = .exn) :
    read_and_unpack ⟨chunk :: rest, sentl⟩ = (.exn, ⟨rest, sentl⟩) := by
  simp [read_and_unpack, h1, h2]

theorem rau_crc_bad {chunk u : Bytes} (rest sentl : List Bytes)
    (h1 : byte_unstuff chunk = some u) (h2 : crc_match u = .ret false) :
    read_and_unpack ⟨chunk :: rest, sentl⟩ = (.ret none, ⟨rest, sentl⟩) := by
  simp [read_and_unpack, h1, h2]

theorem rau_ok {chunk u : Bytes} (rest sentl : List Bytes)
    (h1 : byte_unstuff chunk = some u) (h2 : crc_match u = .ret true) :
    read_and_unpack ⟨chunk :: rest, sentl⟩ =
      (.ret (some (u.take (u.length - 2))), ⟨rest, sentl⟩) := by
  simp [read_and_unpack, h1, h2]

theorem read_and_unpack_sent (s : DriveIO) : (read_and_unpack s).2.sent = s.sent := by
  obtain ⟨resp, sentl⟩ := s
  cases resp with
  | nil => rfl
  | cons chunk rest =>
    cases hbu : byte_unstuff chunk with
    | none => rw [rau_unstuff_fail rest sentl hbu]
    | some u =>
      rcases hcm : crc_match u with b | _
      · cases b
        · rw [rau_crc_bad rest sentl hbu hcm]
        · rw [rau_ok rest sentl hbu hcm]
      · rw [rau_crc_exn rest sentl hbu hcm]

theorem write_object_sent (index subindex : Nat) (data : Int) (data_format : Char)
    (s : DriveIO) :
    (write_object index subindex data data_format s).2.sent = s.sent ++
      [byte_stuff (add_crc
        ([0x68, 0x04, NODE_ID] ++ le_bytes 2 index ++ [subindex % 256] ++
          int32_le data ++ [0, 0])
        (calc_crc ([0x68, 0x04, NODE_ID] ++ le_bytes 2 index ++ [subindex % 256] ++
          int32_le data ++ [0, 0])))] := by
  simp only [write_object]
  rw [if_pos (by decide : ('l' : Char) ∈ table_formats)]
  simp only [pack_and_write, if_pos]
  rcases hrau : read_and_unpack
      ⟨s.responses, s.sent ++ [byte_stuff (add_crc
        ([0x68, 0x04, NODE_ID] ++ le_bytes 2 index ++ [subindex % 256] ++
          int32_le data ++ [0, 0])
        (calc_crc ([0x68, 0x04, NODE_ID] ++ le_bytes 2 index ++ [subindex % 256] ++
          int32_le data ++ [0, 0])))]⟩ with ⟨r, s2⟩
  have hs2 := read_and_unpack_sent
    ⟨s.responses, s.sent ++ [byte_stuff (add_crc
      ([0x68, 0x04, NODE_ID] ++ le_bytes 2 index ++ [subindex % 256] ++
        int32_le data ++ [0, 0])
      (calc_crc ([0x68, 0x04, NODE_ID] ++ le_bytes 2 index ++ [subindex % 256] ++
        int32_le data ++ [0, 0])))]⟩
  rw [hrau] at hs2
  cases r with
  | exn => exact hs2
  | ret o =>
    cases o with
    | none => exact hs2
    | some recvd =>
      show (if 4 ≤ recvd.length then
          if recvd.getD 0 0 = 0 ∧ recvd.getD 1 0 = 2 ∧
              recvd.getD 2 0 + 256 * recvd.getD 3 0 = 0 then (WriteOutcome.ok, s2)
          else (WriteOutcome.failed, s2)
        else (WriteOutcome.exn, s2)).2.sent = _
      split_ifs <;> exact hs2

/-- C5: write request frame layout.  For every index, subindex, declared
format and value, `write_object` transmits exactly one frame, built from the
pre-stuffing body `[0x68, 0x04, nodeId, indexLo, indexHi, subindex,
valueB0..valueB3, 0x00, 0x00]` with the value encoded as the 4 little-endian
bytes of its 32-bit two's complement regardless of the declared format
(`write_object` produces the same result for every format argument), after
which the CRC replaces the two placeholder bytes (`add_crc`) and the result
is byte-stuffed with the preamble (`byte_stuff`). -/
theorem claim_C5_write_request_layout (index subindex : Nat) (data : Int)
    (data_format : Char) (s : DriveIO)
    (hidx : index < 2 ^ 16) (hsub : subindex < 256)
    (hlo : -(2 ^ 31) ≤ data) (hhi : data < 2 ^ 31) :
    ((write_object index subindex data data_format s).2.sent = s.sent ++
      [byte_stuff (add_crc
        [0x68, 0x04, 0x00, index % 256, index / 256, subindex,
          (data % (2 ^ 32 : Int)).toNat % 256,
          (data % (2 ^ 32 : Int)).toNat / 256 % 256,
          (data % (2 ^ 32 : Int)).toNat / 65536 % 256,
          (data % (2 ^ 32 : Int)).toNat / 16777216 % 256, 0, 0]
        (calc_crc
          [0x68, 0x04, 0x00, index % 256, index / 256, subindex,
            (data % (2 ^ 32 : Int)).toNat % 256,
            (data % (2 ^ 32 : Int)).toNat / 256 % 256,
            (data % (2 ^ 32 : Int)).toNat / 65536 % 256,
            (data % (2 ^ 32 : Int)).toNat / 16777216 % 256, 0, 0]))]) ∧
    ∀ other_format : Char, write_object index subindex data other_format s =
      write_object index subindex data data_format s := by
  have hbody : ([0x68, 0x04, NODE_ID] ++ le_bytes 2 index ++ [subindex % 256] ++
      int32_le data ++ [0, 0] : Bytes) =
      [0x68, 0x04, 0x00, index % 256, index / 256, subindex,
        (data % (2 ^ 32 : Int)).toNat % 256,
        (data % (2 ^ 32 : Int)).toNat / 256 % 256,
        (data % (2 ^ 32 : Int)).toNat / 65536 % 256,
        (data % (2 ^ 32 : Int)).toNat / 16777216 % 256, 0, 0] := by
    show (0x68 : Nat) :: 0x04 :: NODE_ID :: index % 256 :: index / 256 % 256 ::
      subindex % 256 :: (data % (2 ^ 32 : Int)).toNat % 256 ::
      (data % (2 ^ 32 : Int)).toNat / 256 % 256 ::
      (data % (2 ^ 32 : Int)).toNat / 256 / 256 % 256 ::
      (data % (2 ^ 32 : Int)).toNat / 256 / 256 / 256 % 256 :: 0 :: 0 :: [] = _
    rw [Nat.mod_eq_of_lt (by omega : index / 256 < 256), Nat.mod_eq_of_lt hsub,
      Nat.div_div_eq_div_mul, Nat.div_div_eq_div_mul]
    norm_num [NODE_ID]
  constructor
  · rw [write_object_sent, hbody]
  · intro other_format
    rfl

/-- C5 witness: writing the value 5 to the control register index `0x6040`
transmits exactly the frame built from
`[68 04 00 40 60 00 05 00 00 00 00 00]`. -/
theorem claim_C5_write_request_layout_witness :
    (write_object 0x6040 0 5 'H' ⟨[], []⟩).2.sent = [byte_stuff (add_crc
      [0x68, 0x04, 0x00, 0x40, 0x60, 0, 5, 0, 0, 0, 0, 0]
      (calc_crc [0x68, 0x04, 0x00, 0x40, 0x60, 0, 5, 0, 0, 0, 0, 0]))] := by
  have h := (claim_C5_write_request_layout 0x6040 0 5 'H' ⟨[], []⟩ (by norm_num)
    (by norm_num) (by norm_num) (by norm_num)).1
  exact h

/-! ### C8: timeout behaviour -/

theorem read_wait_no_data (any : Nat → Nat) (hq : ∀ t, any t = 0)
    (time_started : Nat) : ∀ t, read_wait any time_started t = none := by
  have H : ∀ n t, 1000 + time_started - t ≤ n → read_wait any time_started t = none := by
    intro n
    induction n with
    | zero =>
      intro t ht
      rw [read_wait]
      simp [hq t, show 1000 ≤ t + 1 - time_started by omega]
    | succ n ih =>
      intro t ht
      rw [read_wait]
      by_cases hb : 1000 ≤ t + 1 - time_started
      · simp [hq t, hb]
      · simp only [hq t, if_pos rfl, if_neg hb]
        exact ih (t + 1) (by omega)
  exact fun t => H (1000 + time_started - t) t le_rfl

/-- C8: timeout behaviour.  On a transport whose `bytesAvailable` is always
zero, the polling loop gives up (returns `none`) once the 1000 ms bound is
reached — starting from any poll time — and consequently `read_and_unpack`
returns `None`; every read transaction then returns `None` and every write
transaction reports failure; nothing retries. -/
theorem claim_C8_timeout (any : Nat → Nat) (hq : ∀ t, any t = 0) :
    (∀ time_started t, read_wait any time_started t = none) ∧
    (∀ sentl, read_and_unpack ⟨[], sentl⟩ = (Py.ret none, ⟨[], sentl⟩)) ∧
    (∀ index subindex data_format sentl, data_format ∈ table_formats →
      (read_object index subindex data_format ⟨[], sentl⟩).1 = Py.ret none) ∧
    (∀ index subindex data data_format sentl,
      (write_object index subindex data data_format ⟨[], sentl⟩).1 =
        WriteOutcome.failed) := by
  refine ⟨fun time_started => read_wait_no_data any hq time_started, fun sentl => rfl,
    ?_, ?_⟩
  · intro index subindex data_format sentl hfmt
    simp only [read_object]
    rw [if_pos hfmt]
    rfl
  · intro index subindex data data_format sentl
    simp only [write_object]
    rw [if_pos (by decide : ('l' : Char) ∈ table_formats)]
    rfl

/-- C8 witness: the timeout theorem applied to the all-zeroes transport. -/
theorem claim_C8_timeout_witness :
    read_wait (fun _ => 0) 0 0 = none ∧
    (read_object 0x6041 0 'H' ⟨[], []⟩).1 = Py.ret none := by
  have h := claim_C8_timeout (fun _ => 0) (fun _ => rfl)
  exact ⟨h.1 0 0, h.2.2.1 0x6041 0 'H' [] (by decide)⟩

/-! ### C9: the write-response unpack raises only on too-small bodies -/

set_option maxRecDepth 200000 in
/-- C9 counterexample: a CRC-valid reply frame whose stripped body has
6 bytes — a length other than 4 — does not raise in `write_object`:
MicroPython's `struct.unpack('<BBH', recvd)` ignores the two trailing
bytes and the write reports success. -/
theorem claim_C9_counterexample :
    byte_unstuff (mk_frame [0, 2, 0, 0, 0, 0, 0, 0]) =
      some (add_crc [0, 2, 0, 0, 0, 0, 0, 0] (calc_crc [0, 2, 0, 0, 0, 0, 0, 0])) ∧
    crc_match (add_crc [0, 2, 0, 0, 0, 0, 0, 0]
      (calc_crc [0, 2, 0, 0, 0, 0, 0, 0])) = Py.ret true ∧
    ((add_crc [0, 2, 0, 0, 0, 0, 0, 0] (calc_crc [0, 2, 0, 0, 0, 0, 0, 0])).take
      ((add_crc [0, 2, 0, 0, 0, 0, 0, 0]
        (calc_crc [0, 2, 0, 0, 0, 0, 0, 0])).length - 2)).length = 6 ∧
    (write_object 0x6040 0 5 'H'
      ⟨[mk_frame [0, 2, 0, 0, 0, 0, 0, 0]], []⟩).1 = WriteOutcome.ok :=
  ⟨by decide, by decide, by decide, by decide⟩

/-- C9 (amended): the write-response parser is not total.  MicroPython's
`struct.unpack` raises only when the buffer is too small, so if the
unstuffed, CRC-valid reply body (CRC stripped) is shorter than the 4 bytes
`'<BBH'` needs, `write_object` raises an uncaught exception (modelled
`.exn`), whereas `read_object` catches its own too-small unpack failure
(a body shorter than `6 + fmt_size`) and returns the error value `None`. -/
theorem claim_C9_write_unpack_not_total (index subindex : Nat) (data : Int)
    (data_format : Char) (chunk u : Bytes) (rest sentl : List Bytes)
    (hunst : byte_unstuff chunk = some u)
    (hcrc : crc_match u = Py.ret true)
    (hblen : (u.take (u.length - 2)).length < 4) :
    (write_object index subindex data data_format ⟨chunk :: rest, sentl⟩).1 =
      WriteOutcome.exn ∧
    (∀ fmt : Char, fmt ∈ table_formats →
      (u.take (u.length - 2)).length < 6 + fmt_size fmt →
      (read_object index subindex fmt ⟨chunk :: rest, sentl⟩).1 = Py.ret none) := by
  constructor
  · simp only [write_object]
    rw [if_pos (by decide : ('l' : Char) ∈ table_formats)]
    simp only [pack_and_write, if_pos]
    rw [rau_ok rest _ hunst hcrc]
    show (if 4 ≤ (u.take (u.length - 2)).length then _ else
      (WriteOutcome.exn, (⟨rest, _⟩ : DriveIO))).1 = WriteOutcome.exn
    rw [if_neg (by omega)]
  · intro fmt hfmt hlen
    simp only [read_object]
    rw [if_pos hfmt]
    simp only [pack_and_write]
    rw [rau_ok rest _ hunst hcrc]
    show (if 6 + fmt_size fmt ≤ (u.take (u.length - 2)).length then _ else
      ((Py.ret none : Py (Option Int)), (⟨rest, _⟩ : DriveIO))).1 = Py.ret none
    rw [if_neg (by omega)]

set_option maxRecDepth 200000 in
/-- C9 witness: a CRC-valid 4-byte reply frame whose stripped body has only
2 bytes crashes the write path but is reported as `None` by the read path
(here for format `'H'`, which needs 8 body bytes). -/
theorem claim_C9_write_unpack_not_total_witness :
    (write_object 0x6040 0 5 'H'
      ⟨[mk_frame [0, 2, 0, 0]], []⟩).1 = WriteOutcome.exn ∧
    (read_object 0x6040 0 'H'
      ⟨[mk_frame [0, 2, 0, 0]], []⟩).1 = Py.ret none := by
  have h := claim_C9_write_unpack_not_total 0x6040 0 5 'H'
    (mk_frame [0, 2, 0, 0])
    (add_crc [0, 2, 0, 0] (calc_crc [0, 2, 0, 0]))
    [] [] (by decide) (by decide) (by decide)
  exact ⟨h.1, h.2 'H' (by decide) (by decide)⟩

/-! ### C10: fault status conflates communication failure with a fault -/

/-- C10: `get_fault_status` conflates communication failure with a drive
fault.  Whenever the error-register read returns `None` (timeout, framing,
CRC or protocol failure), `get_fault_status` returns `True`, because
`None != 0`; it returns `False` exactly when the read returns the value 0. -/
theorem claim_C10_fault_status_conflation (s : DriveIO) :
    ((read_object_by_name "error" s).1 = Py.ret none →
      (get_fault_status s).1 = Py.ret true) ∧
    ((get_fault_status s).1 = Py.ret false ↔
      (read_object_by_name "error" s).1 = Py.ret (some 0)) := by
  rcases h : read_object_by_name "error" s with ⟨r, s1⟩
  simp only [get_fault_status, h]
  cases r with
  | exn => simp
  | ret e =>
    cases e with
    | none => simp
    | some v =>
      by_cases hv : v = 0 <;> simp [hv]

set_option maxRecDepth 200000 in
/-- C10 witness: on a transport that never answers, the error-register read
times out with `None` and `get_fault_status` reports a fault. -/
theorem claim_C10_fault_status_conflation_witness :
    (get_fault_status ⟨[], []⟩).1 = Py.ret true :=
  (claim_C10_fault_status_conflation ⟨[], []⟩).1 (by decide)

/-! ### C6: mode gating in set_control -/

/-- C6: mode gating.  For a command of the static control table whose
applicable mode is not `"ANY"`, once the control-register read has returned
a value and the mode-display read has reported mode `m`, `set_control`
raises the mode-gate `AssertionError` of line 371 (`ModeMismatch`) —
transmitting nothing further — whenever `m` differs from the command's
required mode code, and issues the masked control-register write whenever
`m` equals it exactly. -/
theorem claim_C6_mode_gating (cmd : String) (mask value : Nat) (amode : String)
    (code existing m : Int) (s s1 s2 : DriveIO)
    (hc : lookupControl cmd = some (mask, value, amode))
    (hne : amode ≠ "ANY")
    (hmc : lookupMode amode = some code)
    (hg : get_control s = (Py.ret (some existing), s1))
    (hm : read_object_by_name "mode_display" s1 = (Py.ret (some m), s2)) :
    (m ≠ code → set_control cmd s = (SCResult.modeMismatch, s2)) ∧
    (m = code → set_control cmd s =
      (scOfWrite (write_object_by_name "control"
          ((applyMask existing.toNat mask value : Nat) : Int) s2).1,
        (write_object_by_name "control"
          ((applyMask existing.toNat mask value : Nat) : Int) s2).2)) := by
  constructor
  · intro hmne
    simp only [set_control, hg, hm, hc]
    rw [if_neg hne]
    simp only [hmc]
    rw [if_neg (by simp [hmne])]
  · intro hmeq
    subst hmeq
    simp only [set_control, hg, hm, hc]
    rw [if_neg hne]
    simp only [hmc]
    simp only [if_true]

set_option maxRecDepth 1000000 in
/-- C6 witness: `set_control "homing_start"` (mode-scoped to HMM, code 6)
issues the masked write and succeeds when the canned mode-display reply
reports 6, and raises the mode gate when it reports 1 (PPM). -/
theorem claim_C6_mode_gating_witness :
    (set_control "homing_start"
      ⟨[control_reply_frame, mode_display_frame 6, write_ack_frame], []⟩).1 =
      SCResult.ok ∧
    (set_control "homing_start"
      ⟨[control_reply_frame, mode_display_frame 1], []⟩).1 =
      SCResult.modeMismatch := by
  constructor
  · have h := (claim_C6_mode_gating "homing_start" 0x0010 0x0010 "HMM" 6 0x0237 6
      ⟨[control_reply_frame, mode_display_frame 6, write_ack_frame], []⟩
      (scState1 ⟨[control_reply_frame, mode_display_frame 6, write_ack_frame], []⟩)
      (scState2 ⟨[control_reply_frame, mode_display_frame 6, write_ack_frame], []⟩)
      (by decide) (by decide) (by decide) (by decide) (by decide)).2 rfl
    rw [h]
    decide
  · have h := (claim_C6_mode_gating "homing_start" 0x0010 0x0010 "HMM" 6 0x0237 1
      ⟨[control_reply_frame, mode_display_frame 1], []⟩
      (scState1 ⟨[control_reply_frame, mode_display_frame 1], []⟩)
      (scState2 ⟨[control_reply_frame, mode_display_frame 1], []⟩)
      (by decide) (by decide) (by decide) (by decide) (by decide)).1 (by decide)
    rw [h]

/-! ### C7: in-place homing -/

theorem pyBind_ret {α β : Type} (a : α) (s : DriveIO)
    (f : α → DriveIO → Py β × DriveIO) : pyBind (.ret a, s) f = f a s := rfl

theorem woStep_ok {β : Type} (s : DriveIO)
    (f : WriteOutcome → DriveIO → Py β × DriveIO) :
    woStep (.ok, s) f = f .ok s := rfl

theorem scStep_ok {β : Type} (s : DriveIO)
    (f : SCResult → DriveIO → Py β × DriveIO) :
    scStep (.ok, s) f = f .ok s := rfl

/-- C7: in-place homing.  `home "in_place"` sets mode HMM, writes homing
method 37, pulses `homing_start` and clears it; when the three transacted
steps all reported success, it returns success exactly when the
subsequently read actual position equals zero — in particular it returns
`False` (HomingNotAtZero) when the position read is non-zero or fails. -/
theorem claim_C7_home_in_place (s s1 s2 s3 s4 s5 : DriveIO) (r0 : Bool)
    (pos : Option Int)
    (h0 : set_mode_of_operation "HMM" s = (Py.ret r0, s1))
    (h1 : write_object_by_name "homing_method" 37 s1 = (WriteOutcome.ok, s2))
    (h2 : set_control "homing_start" s2 = (SCResult.ok, s3))
    (h3 : set_control "clear_homing_start" s3 = (SCResult.ok, s4))
    (h4 : get_actual_position s4 = (Py.ret pos, s5)) :
    home "in_place" s = (Py.ret (some (decide (pos = some 0))), s5) := by
  simp only [home, h0, pyBind_ret]
  simp only [if_true]
  simp only [h1, woStep_ok, h2, scStep_ok, h3]
  simp only [writeToBool, scToBool, Bool.and_self, if_true]
  simp only [h4, pyBind_ret]

set_option maxRecDepth 1000000 in
/-- C7 witness: with canned successful replies (mode-write ack, HMM mode
echo, homing-method ack, then for each `set_control` a control-register
reply, HMM mode echo and write ack), `home "in_place"` returns `True` when
the final actual-position reply is 0 and `False` when it is 5. -/
theorem claim_C7_home_in_place_witness :
    (home "in_place"
      ⟨[write_ack_frame, mode_display_frame 6, write_ack_frame,
        control_reply_frame, mode_display_frame 6, write_ack_frame,
        control_reply_frame, mode_display_frame 6, write_ack_frame,
        position_reply_frame 0], []⟩).1 = Py.ret (some true) ∧
    (home "in_place"
      ⟨[write_ack_frame, mode_display_frame 6, write_ack_frame,
        control_reply_frame, mode_display_frame 6, write_ack_frame,
        control_reply_frame, mode_display_frame 6, write_ack_frame,
        position_reply_frame 5], []⟩).1 = Py.ret (some false) := by
  constructor
  · have h := claim_C7_home_in_place
      ⟨[write_ack_frame, mode_display_frame 6, write_ack_frame,
        control_reply_frame, mode_display_frame 6, write_ack_frame,
        control_reply_frame, mode_display_frame 6, write_ack_frame,
        position_reply_frame 0], []⟩
      (homeState1 ⟨[write_ack_frame, mode_display_frame 6, write_ack_frame,
        control_reply_frame, mode_display_frame 6, write_ack_frame,
        control_reply_frame, mode_display_frame 6, write_ack_frame,
        position_reply_frame 0], []⟩)
      (homeState2 ⟨[write_ack_frame, mode_display_frame 6, write_ack_frame,
        control_reply_frame, mode_display_frame 6, write_ack_frame,
        control_reply_frame, mode_display_frame 6, write_ack_frame,
        position_reply_frame 0], []⟩)
      (homeState3 ⟨[write_ack_frame, mode_display_frame 6, write_ack_frame,
        control_reply_frame, mode_display_frame 6, write_ack_frame,
        control_reply_frame, mode_display_frame 6, write_ack_frame,
        position_reply_frame 0], []⟩)
      (homeState4 ⟨[write_ack_frame, mode_display_frame 6, write_ack_frame,
        control_reply_frame, mode_display_frame 6, write_ack_frame,
        control_reply_frame, mode_display_frame 6, write_ack_frame,
        position_reply_frame 0], []⟩)
      (homeState5 ⟨[write_ack_frame, mode_display_frame 6, write_ack_frame,
        control_reply_frame, mode_display_frame 6, write_ack_frame,
        control_reply_frame, mode_display_frame 6, write_ack_frame,
        position_reply_frame 0], []⟩)
      true (some 0)
      (by decide) (by decide) (by decide) (by decide) (by decide)
    rw [h]
    decide
  · have h := claim_C7_home_in_place
      ⟨[write_ack_frame, mode_display_frame 6, write_ack_frame,
        control_reply_frame, mode_display_frame 6, write_ack_frame,
        control_reply_frame, mode_display_frame 6, write_ack_frame,
        position_reply_frame 5], []⟩
      (homeState1 ⟨[write_ack_frame, mode_display_frame 6, write_ack_frame,
        control_reply_frame, mode_display_frame 6, write_ack_frame,
        control_reply_frame, mode_display_frame 6, write_ack_frame,
        position_reply_frame 5], []⟩)
      (homeState2 ⟨[write_ack_frame, mode_display_frame 6, write_ack_frame,
        control_reply_frame, mode_display_frame 6, write_ack_frame,
        control_reply_frame, mode_display_frame 6, write_ack_frame,
        position_reply_frame 5], []⟩)
      (homeState3 ⟨[write_ack_frame, mode_display_frame 6, write_ack_frame,
        control_reply_frame, mode_display_frame 6, write_ack_frame,
        control_reply_frame, mode_display_frame 6, write_ack_frame,
        position_reply_frame 5], []⟩)
      (homeState4 ⟨[write_ack_frame, mode_display_frame 6, write_ack_frame,
        control_reply_frame, mode_display_frame 6, write_ack_frame,
        control_reply_frame, mode_display_frame 6, write_ack_frame,
        position_reply_frame 5], []⟩)
      (homeState5 ⟨[write_ack_frame, mode_display_frame 6, write_ack_frame,
        control_reply_frame, mode_display_frame 6, write_ack_frame,
        control_reply_frame, mode_display_frame 6, write_ack_frame,
        position_reply_frame 5], []⟩)
      true (some 5)
      (by decide) (by decide) (by decide) (by decide) (by decide)
    rw [h]
    decide

end EPOS4
